import Mathlib

/-!
Shallow embedding of the selection registry and dual-backend persistence
engine of `src/public/js/fileStorageModule.mjs`, together with theorems
settling the spec claims about it.

Conventions of the embedding:
* JavaScript objects appearing as selection items are modelled by `JsVal`:
  either a non-object value (number, string, null, ...) or an object with
  an identity (`oid`, standing for JS reference identity used by `Set`),
  a field map of primitive-typed fields (all the classification predicates
  in the source only inspect `typeof` of primitive fields), an `iterable`
  flag (whether `createDirectoryIterator` can produce an iterator for it)
  and the list of children that iterator yields.
* Maps (`Map`, IndexedDB object stores) are association lists with
  `mapGet` / `mapPut` / `mapErase`; `mapPut` mirrors upsert semantics.
* Asynchronous effects are explicit: operations that can reject carry an
  `Except String` result, and the points where the store can fail
  (IndexedDB `put`/`delete`, registry `registerKey`) are parametrised by
  failure-injection arguments, mirroring the injectable dependencies of
  the source (`openDatabase`, `permissionRequester`, ...).
-/

namespace FileFerry

/-! ### Association-list maps (JS `Map` / IndexedDB object store) -/

def mapGet {α : Type} : List (String × α) → String → Option α
  | [], _ => none
  | (k', v) :: rest, k => if k = k' then some v else mapGet rest k

def mapPut {α : Type} : List (String × α) → String → α → List (String × α)
  | [], k, v => [(k, v)]
  | (k', v') :: rest, k, v =>
    if k = k' then (k, v) :: rest else (k', v') :: mapPut rest k v

def mapErase {α : Type} : List (String × α) → String → List (String × α)
  | [], _ => []
  | (k', v') :: rest, k =>
    if k = k' then rest else (k', v') :: mapErase rest k

theorem mapGet_mapPut_self {α : Type} (m : List (String × α)) (k : String) (v : α) :
    mapGet (mapPut m k v) k = some v := by
  induction m with
  | nil => simp [mapPut, mapGet]
  | cons hd tl ih =>
    by_cases h : k = hd.1
    · simp [mapPut, mapGet, h]
    · simp [mapPut, mapGet, h, ih]

theorem mapGet_mapPut_ne {α : Type} (m : List (String × α)) (k k' : String) (v : α)
    (h : k' ≠ k) : mapGet (mapPut m k v) k' = mapGet m k' := by
  induction m with
  | nil => simp [mapPut, mapGet, h]
  | cons hd tl ih =>
    by_cases hk : k = hd.1
    · subst hk
      simp [mapPut, mapGet, h]
    · by_cases hk' : k' = hd.1
      · simp [mapPut, mapGet, hk, hk']
      · simp [mapPut, mapGet, hk, hk', ih]

theorem mapGet_mapErase_self {α : Type} (m : List (String × α)) (k : String)
    (hnone : mapGet m k = none) : mapErase m k = m := by
  induction m with
  | nil => simp [mapErase]
  | cons hd tl ih =>
    by_cases h : k = hd.1
    · simp [mapGet, h] at hnone
    · simp [mapGet, h] at hnone
      simp [mapErase, h, ih hnone]

theorem mapGet_mapErase {α : Type} (m : List (String × α)) (k k' : String)
    (hnd : (m.map Prod.fst).Nodup) :
    mapGet (mapErase m k) k' = if k' = k then none else mapGet m k' := by
  induction m with
  | nil => simp [mapErase, mapGet]
  | cons hd tl ih =>
    simp only [List.map_cons, List.nodup_cons] at hnd
    by_cases h : k = hd.1
    · subst h
      by_cases h' : k' = hd.1
      · subst h'
        simp only [mapErase, if_pos rfl, if_pos rfl]
        cases hget : mapGet tl hd.1 with
        | none => exact hget
        | some v =>
          exfalso
          apply hnd.1
          clear ih
          induction tl with
          | nil => simp [mapGet] at hget
          | cons hd' tl' ih' =>
            simp only [mapGet] at hget
            by_cases hh : hd.1 = hd'.1
            · simp [hh]
            · simp only [if_neg hh] at hget
              simp only [List.map_cons, List.mem_cons]
              right
              exact ih' (by
                simp only [List.map_cons, List.nodup_cons] at hnd ⊢
                exact ⟨fun hmem => hnd.1 (List.mem_cons_of_mem _ hmem), hnd.2.2⟩) hget
      · simp [mapErase, mapGet, h']
    · by_cases h' : k' = hd.1
      · subst h'
        have hne : ¬hd.1 = k := fun hk => h hk.symm
        simp [mapErase, mapGet, h, hne]
      · simp only [mapErase, if_neg h, mapGet, if_neg h']
        exact ih hnd.2

instance {ε α : Type} [DecidableEq ε] [DecidableEq α] : DecidableEq (Except ε α)
  | .ok a, .ok b =>
    if h : a = b then isTrue (by rw [h])
    else isFalse (fun hh => by cases hh; exact h rfl)
  | .ok _, .error _ => isFalse (fun h => Except.noConfusion h)
  | .error _, .ok _ => isFalse (fun h => Except.noConfusion h)
  | .error a, .error b =>
    if h : a = b then isTrue (by rw [h])
    else isFalse (fun hh => by cases hh; exact h rfl)

theorem mapPut_cons_eq {α : Type} (hd : String × α) (tl : List (String × α))
    (k : String) (v : α) (h : k = hd.1) :
    mapPut (hd :: tl) k v = (k, v) :: tl := by
  cases hd
  simp_all [mapPut]

theorem mapPut_cons_ne {α : Type} (hd : String × α) (tl : List (String × α))
    (k : String) (v : α) (h : ¬k = hd.1) :
    mapPut (hd :: tl) k v = hd :: mapPut tl k v := by
  cases hd
  simp_all [mapPut]

theorem mapErase_cons_eq {α : Type} (hd : String × α) (tl : List (String × α))
    (k : String) (h : k = hd.1) : mapErase (hd :: tl) k = tl := by
  cases hd
  simp_all [mapErase]

theorem mapErase_cons_ne {α : Type} (hd : String × α) (tl : List (String × α))
    (k : String) (h : ¬k = hd.1) : mapErase (hd :: tl) k = hd :: mapErase tl k := by
  cases hd
  simp_all [mapErase]

theorem mapGet_eq_some_mem {α : Type} (m : List (String × α)) (k : String)
    (v : α) (h : mapGet m k = some v) : (k, v) ∈ m := by
  induction m with
  | nil => simp [mapGet] at h
  | cons hd tl ih =>
    by_cases hk : k = hd.1
    · simp only [mapGet, if_pos hk] at h
      cases h
      rw [hk]
      exact List.mem_cons_self _ _
    · simp only [mapGet, if_neg hk] at h
      exact List.mem_cons_of_mem _ (ih h)

theorem mapGet_isSome_of_mem {α : Type} (m : List (String × α))
    (p : String × α) (hp : p ∈ m) : (mapGet m p.1).isSome = true := by
  induction m with
  | nil => cases hp
  | cons hd tl ih =>
    by_cases hk : p.1 = hd.1
    · simp [mapGet, hk]
    · rcases List.mem_cons.mp hp with h1 | h1
      · rw [h1] at hk
        exact absurd rfl hk
      · simp only [mapGet, if_neg hk]
        exact ih h1

theorem all_mapPut {α : Type} (m : List (String × α)) (k : String) (v : α)
    (q : String × α → Bool) (hm : m.all q = true) (hv : q (k, v) = true) :
    (mapPut m k v).all q = true := by
  induction m with
  | nil => simpa [mapPut] using hv
  | cons hd tl ih =>
    simp only [List.all_cons, Bool.and_eq_true] at hm
    by_cases hk : k = hd.1
    · rw [mapPut_cons_eq hd tl k v hk]
      simp [hv, hm.2]
    · rw [mapPut_cons_ne hd tl k v hk]
      simp [hm.1, ih hm.2]

theorem all_mapErase {α : Type} (m : List (String × α)) (k : String)
    (q : String × α → Bool) (hm : m.all q = true) :
    (mapErase m k).all q = true := by
  induction m with
  | nil => simp [mapErase]
  | cons hd tl ih =>
    simp only [List.all_cons, Bool.and_eq_true] at hm
    by_cases hk : k = hd.1
    · rw [mapErase_cons_eq hd tl k hk]
      exact hm.2
    · rw [mapErase_cons_ne hd tl k hk]
      simp [hm.1, ih hm.2]

/-! ### JavaScript selection values

Classification predicates in the source only ever test `typeof` of
primitive-valued fields (`kind`, `name`, `size`, `lastModified`, `type`,
`fullPath`, `path`, `isFile`, `isDirectory`, `webkitRelativePath`), so an
object's fields are primitive `FieldVal`s; recursion enters a value only
through directory iteration (`values()` / `entries()` children). -/

inductive FieldVal where
  | fvStr (s : String)
  | fvNum (n : Int)
  | fvBool (b : Bool)
  | fvOther
  deriving Repr, DecidableEq

inductive JsVal where
  | nonObj
  | obj (oid : Nat) (fields : List (String × FieldVal)) (iterable : Bool)
      (children : List JsVal)
  deriving Repr

mutual

def JsVal.decEq : (a b : JsVal) → Decidable (a = b)
  | .nonObj, .nonObj => isTrue rfl
  | .nonObj, .obj _ _ _ _ => isFalse (fun h => JsVal.noConfusion h)
  | .obj _ _ _ _, .nonObj => isFalse (fun h => JsVal.noConfusion h)
  | .obj i f it c, .obj i' f' it' c' =>
    match JsVal.decEqList c c' with
    | isTrue hc =>
      if hi : i = i' then
        if hf : f = f' then
          if hit : it = it' then
            isTrue (by rw [hi, hf, hit, hc])
          else isFalse (fun h => by cases h; exact hit rfl)
        else isFalse (fun h => by cases h; exact hf rfl)
      else isFalse (fun h => by cases h; exact hi rfl)
    | isFalse hc => isFalse (fun h => by cases h; exact hc rfl)

def JsVal.decEqList : (a b : List JsVal) → Decidable (a = b)
  | [], [] => isTrue rfl
  | [], _ :: _ => isFalse (fun h => List.noConfusion h)
  | _ :: _, [] => isFalse (fun h => List.noConfusion h)
  | x :: xs, y :: ys =>
    match JsVal.decEq x y, JsVal.decEqList xs ys with
    | isTrue h1, isTrue h2 => isTrue (by rw [h1, h2])
    | isFalse h1, _ => isFalse (fun h => by cases h; exact h1 rfl)
    | isTrue _, isFalse h2 => isFalse (fun h => by cases h; exact h2 rfl)

end

instance : DecidableEq JsVal := JsVal.decEq

def strField : JsVal → String → Option String
  | .nonObj, _ => none
  | .obj _ fields _ _, name =>
    match mapGet fields name with
    | some (.fvStr s) => some s
    | _ => none

def numField : JsVal → String → Option Int
  | .nonObj, _ => none
  | .obj _ fields _ _, name =>
    match mapGet fields name with
    | some (.fvNum n) => some n
    | _ => none

def boolField : JsVal → String → Option Bool
  | .nonObj, _ => none
  | .obj _ fields _ _, name =>
    match mapGet fields name with
    | some (.fvBool b) => some b
    | _ => none

def oidOf : JsVal → Nat
  | .nonObj => 0
  | .obj oid _ _ _ => oid

/-- `isFileSystemHandle`: an object whose `kind` and `name` are strings. -/
def isFileSystemHandle (candidate : JsVal) : Bool :=
  (strField candidate "kind").isSome && (strField candidate "name").isSome

/-- `isFileLike`: object with string `name` and a numeric `size` or numeric
`lastModified` or string `type`. -/
def isFileLike (candidate : JsVal) : Bool :=
  (strField candidate "name").isSome &&
    ((numField candidate "size").isSome ||
      (numField candidate "lastModified").isSome ||
      (strField candidate "type").isSome)

/-- `isEntryLike`: object with a string `kind`, `fullPath` or `path`, or a
boolean `isFile` or `isDirectory`. -/
def isEntryLike (candidate : JsVal) : Bool :=
  (strField candidate "kind").isSome ||
    (strField candidate "fullPath").isSome ||
    (strField candidate "path").isSome ||
    (boolField candidate "isFile").isSome ||
    (boolField candidate "isDirectory").isSome

def isTransientEntry (candidate : JsVal) : Bool :=
  isFileLike candidate || isEntryLike candidate

/-- `isPureNativeSelection`: non-empty and every item handle-shaped. -/
def isPureNativeSelection (items : List JsVal) : Bool :=
  !items.isEmpty && items.all isFileSystemHandle

/-- Selection inputs accepted by `normalizeSelectionInput`: `null`/`undefined`,
an array-like/iterable (already materialised as a list), or a single
non-iterable value. -/
inductive SelInput where
  | nullish
  | arr (items : List JsVal)
  | single (v : JsVal)
  deriving Repr, DecidableEq

def normalizeSelectionInput : SelInput → List JsVal
  | .nullish => []
  | .arr items => items
  | .single v => [v]

/-! ### Handle traversal (`summarizeHandles` / `summarizeDirectoryChildren`)

`context.seen` is a JS `Set` of directory handles compared by reference
identity; the embedding tracks the `oid`s of visited directories. A
directory whose environment provides no async iterator
(`createDirectoryIterator` returns `null`) is an `obj` with
`iterable = false`; its summary is `{files: 0, directories: 0}`. -/

mutual

def summarizeDirectoryChildren (directoryHandle : JsVal) (seen : List Nat) :
    (Nat × Nat) × List Nat :=
  match directoryHandle with
  | .obj _ _ true children => summarizeEntryList children 0 0 seen
  | _ => ((0, 0), seen)

def summarizeEntryList (entries : List JsVal) (files dirs : Nat)
    (seen : List Nat) : (Nat × Nat) × List Nat :=
  match entries with
  | [] => ((files, dirs), seen)
  | entry :: rest =>
    if isFileSystemHandle entry then
      if strField entry "kind" = some "file" then
        summarizeEntryList rest (files + 1) dirs seen
      else if strField entry "kind" = some "directory" then
        if oidOf entry ∈ seen then
          summarizeEntryList rest files (dirs + 1) seen
        else
          match summarizeDirectoryChildren entry (oidOf entry :: seen) with
          | ((nf, nd), seen') =>
            summarizeEntryList rest (files + nf) (dirs + 1 + nd) seen'
      else
        summarizeEntryList rest files dirs seen
    else
      summarizeEntryList rest files dirs seen

end

structure Summary where
  files : Nat
  directories : Nat
  handles : Nat
  deriving Repr, DecidableEq

def summarizeHandlesLoop (handles : List JsVal) (files dirs hcount : Nat)
    (seen : List Nat) : Summary :=
  match handles with
  | [] => ⟨files, dirs, hcount⟩
  | handle :: rest =>
    if isFileSystemHandle handle then
      if strField handle "kind" = some "file" then
        summarizeHandlesLoop rest (files + 1) dirs (hcount + 1) seen
      else if strField handle "kind" = some "directory" then
        if oidOf handle ∈ seen then
          summarizeHandlesLoop rest files (dirs + 1) (hcount + 1) seen
        else
          match summarizeDirectoryChildren handle (oidOf handle :: seen) with
          | ((nf, nd), seen') =>
            summarizeHandlesLoop rest (files + nf) (dirs + 1 + nd) (hcount + 1) seen'
      else
        summarizeHandlesLoop rest files dirs (hcount + 1) seen
    else
      summarizeHandlesLoop rest files dirs hcount seen

def summarizeHandles (handles : List JsVal) : Summary :=
  summarizeHandlesLoop handles 0 0 0 []

/-- `hasMissingEntries`: fresh traversal counts fell below the stored counts
(`fileCount ?? files`, `directoryCount ?? directories`). -/
def hasMissingEntries (freshFiles freshDirectories : Nat)
    (storedFileCount storedFiles storedDirectoryCount storedDirectories : Option Nat) :
    Bool :=
  let sf := storedFileCount <|> storedFiles
  let sd := storedDirectoryCount <|> storedDirectories
  (match sf with
   | some n => decide (freshFiles < n)
   | none => false) ||
  (match sd with
   | some n => decide (freshDirectories < n)
   | none => false)

/-! ### Transient entry classification and counting -/

def isDirectoryLike (entry : JsVal) : Bool :=
  strField entry "kind" = some "directory" || boolField entry "isDirectory" = some true

def isFileLikeEntry (entry : JsVal) : Bool :=
  strField entry "kind" = some "file" || boolField entry "isFile" = some true ||
    isFileLike entry

/-- `path.replace(/\\/g, '/')` at character level. -/
def replaceBackslashes (s : String) : String :=
  String.mk (s.data.map (fun c => if c = '\\' then '/' else c))

def splitSlashAux : List Char → List Char → List String
  | [], cur => [String.mk cur.reverse]
  | c :: rest, cur =>
    if c = '/' then String.mk cur.reverse :: splitSlashAux rest []
    else splitSlashAux rest (c :: cur)

/-- `path.split('/')` (keeps empty segments, as JS `split` does). -/
def splitSlash (s : String) : List String :=
  splitSlashAux s.data []

/-- `segments.join('/')`. -/
def joinSlash : List String → String
  | [] => ""
  | [s] => s
  | s :: rest => s ++ "/" ++ joinSlash rest

/-- `deriveDirectorySegments`: ancestor-directory paths inferred from the
first non-empty of `webkitRelativePath`, `fullPath`, `path`. -/
def deriveDirectorySegments (entry : JsVal) : List String :=
  let rawPath :=
    match strField entry "webkitRelativePath" with
    | some s =>
      if s.length > 0 then s
      else
        match strField entry "fullPath" with
        | some f => if f ≠ "" then f else (strField entry "path").getD ""
        | none => (strField entry "path").getD ""
    | none =>
      match strField entry "fullPath" with
      | some f => if f ≠ "" then f else (strField entry "path").getD ""
      | none => (strField entry "path").getD ""
  if !rawPath.data.contains '/' then []
  else
    let normalized := replaceBackslashes rawPath
    let parts := (splitSlash normalized).filter (fun s => s ≠ "")
    if parts.isEmpty then []
    else
      let stem := parts.dropLast
      if stem.isEmpty then ["__root__"]
      else (List.range stem.length).map
        (fun i => joinSlash (stem.take (i + 1)))

def insertUnique (l : List String) (s : String) : List String :=
  if s ∈ l then l else l ++ [s]

/-- `summarizeTransientEntries`: classifies each entry as directory-like,
file-like (collecting inferred ancestor directories, deduplicated) or
fallback file; adds the number of distinct derived directories at the end. -/
def summarizeTransientEntries (entries : List JsVal) : Summary :=
  let step := fun (acc : Summary × List String) (entry : JsVal) =>
    let (s, derived) := acc
    if isDirectoryLike entry then
      ({ s with directories := s.directories + 1, handles := s.handles + 1 }, derived)
    else if isFileLikeEntry entry then
      ({ s with files := s.files + 1, handles := s.handles + 1 },
        (deriveDirectorySegments entry).foldl insertUnique derived)
    else
      ({ s with files := s.files + 1, handles := s.handles + 1 }, derived)
  let (s, derived) := entries.foldl step (⟨0, 0, 0⟩, [])
  if derived.length ≠ 0 then
    { s with directories := s.directories + derived.length }
  else s

def DEFAULT_TRANSIENT_EXPIRATION_MESSAGE : String :=
  "Transient selections live only in memory. Keep this tab open; reloading clears them."

/-! ### Permission states -/

def normalizePermissionState (state : String) : String :=
  if state = "granted" || state = "denied" || state = "prompt" then state
  else "unknown"

def aggregatePermissionState (states : List String) : String :=
  if states.isEmpty then "unknown"
  else if states.all (fun s => s = "granted") then "granted"
  else if states.any (fun s => s = "denied") then "denied"
  else if states.any (fun s => s = "prompt") then "prompt"
  else "unknown"

/-! ### Data model -/

def DEFAULT_STORAGE_TYPE : String := "uninitialized"
def NATIVE_HANDLE_STORAGE_TYPE : String := "native-handle"
def TRANSIENT_STORAGE_TYPE : String := "transient-session"

structure RegRecord where
  key : String
  storageType : String
  createdAt : Int
  updatedAt : Int
  deriving Repr, DecidableEq

/-- Native selection record. The count fields are `Option` because the
dispatcher's read paths tolerate records written by older schemas that
lack them (`record.fileCount ?? 0`, `?? record.handles.length`, and the
`fileCount ?? files` fallback in `hasMissingEntries`); `persistHandles`
always writes all three. -/
structure NativeRecord where
  key : String
  handles : List JsVal
  createdAt : Int
  updatedAt : Int
  fileCount : Option Nat
  directoryCount : Option Nat
  handleCount : Option Nat
  files : Option Nat := none
  directories : Option Nat := none
  deriving Repr, DecidableEq

structure Session where
  key : String
  entries : List JsVal
  createdAt : Int
  updatedAt : Int
  counts : Summary
  expiresReason : String
  expiresMessage : String
  deriving Repr, DecidableEq

structure Tombstone where
  status : String
  reason : String
  key : String
  expiredAt : Int
  message : String
  deriving Repr, DecidableEq

structure TransState where
  sessions : List (String × Session)
  expired : List (String × Tombstone)
  deriving Repr, DecidableEq

structure SysState where
  registry : List (String × RegRecord)
  native : List (String × NativeRecord)
  trans : TransState
  deriving Repr, DecidableEq

def initState : SysState := ⟨[], [], ⟨[], []⟩⟩

/-- Caller-supplied metadata (`{key?, createdAt?, updatedAt?, storageType?}`). -/
structure Meta where
  key : Option String := none
  createdAt : Option Int := none
  updatedAt : Option Int := none
  storageType : Option String := none
  deriving Repr, DecidableEq

/-- Unified shape of the JS result objects returned by the backends and the
dispatcher; absent JS fields are `none`. -/
structure ApiResult where
  ok : Bool
  key : Option String := none
  storageType : Option String := none
  source : Option String := none
  reason : Option String := none
  counts : Option Summary := none
  createdAt : Option Int := none
  updatedAt : Option Int := none
  partialFlag : Option Bool := none
  state : Option String := none
  expiresReason : Option String := none
  expiresMessage : Option String := none
  count : Option Nat := none
  errMsg : Option String := none
  deriving Repr, DecidableEq

/-! ### Registry (§4.2)

`registerKey(key?, metadata)` writes `{key, storageType: metadata.storageType
?? 'uninitialized', createdAt, updatedAt}` into the registry partition.
`storeErr` injects a store failure at the single `withStore` write, the
point where `StoreUnavailable` surfaces; a failed transaction writes
nothing. -/

def registerKey (st : SysState) (key : Option String) (meta : Meta)
    (genKey : String) (now : Int) (storeErr : Option String) :
    Except String (RegRecord × SysState) :=
  let newKey := key.getD genKey
  let record : RegRecord :=
    { key := newKey
      storageType := meta.storageType.getD DEFAULT_STORAGE_TYPE
      createdAt := meta.createdAt.getD now
      updatedAt := meta.updatedAt.getD now }
  match storeErr with
  | some e => .error e
  | none => .ok (record, { st with registry := mapPut st.registry newKey record })

def registryGetRecord (st : SysState) (key : String) : Option RegRecord :=
  mapGet st.registry key

def registryRemoveKey (st : SysState) (key : String) : SysState :=
  { st with registry := mapErase st.registry key }

/-! ### Native handle backend (§4.3) -/

def MISSING_SELECTION_MSG : String :=
  "persistHandles requires a non-empty handles array"
def INVALID_HANDLE_MSG : String :=
  "persistHandles expected FileSystem handles but received an invalid element"

/-- Failure injection for the three awaited store effects of
`persistHandles`: the native-record `put`, the registry `registerKey`, and
the compensating `delete`. `none` means the effect succeeds. -/
structure SagaEffects where
  putErr : Option String := none
  registerErr : Option String := none
  deleteErr : Option String := none
  deriving Repr, DecidableEq

def noFailures : SagaEffects := {}

/-- `persistHandles(handles, metadata)`: validate shape (raising
synchronously on violation), derive counts, write the native record, then
register the key; on registration failure delete the just-written record
(swallowing a failure of that delete) and rethrow the registration error. -/
def persistHandles (st : SysState) (handles : List JsVal) (meta : Meta)
    (genKey : String) (now : Int) (eff : SagaEffects) :
    Except String ApiResult × SysState :=
  if handles.isEmpty then (.error MISSING_SELECTION_MSG, st)
  else if handles.any (fun h => !isFileSystemHandle h) then
    (.error INVALID_HANDLE_MSG, st)
  else
    let key := meta.key.getD genKey
    let createdAt := meta.createdAt.getD now
    let summary := summarizeHandles handles
    let record : NativeRecord :=
      { key := key
        handles := handles
        createdAt := createdAt
        updatedAt := meta.updatedAt.getD createdAt
        fileCount := some summary.files
        directoryCount := some summary.directories
        handleCount := some summary.handles }
    match eff.putErr with
    | some e => (.error e, st)
    | none =>
      let st1 := { st with native := mapPut st.native key record }
      match registerKey st1 (some key)
          { storageType := some NATIVE_HANDLE_STORAGE_TYPE
            createdAt := some record.createdAt
            updatedAt := some record.updatedAt } genKey now eff.registerErr with
      | .ok (_, st2) =>
        (.ok { ok := true
               key := some key
               storageType := some NATIVE_HANDLE_STORAGE_TYPE
               counts := some summary
               createdAt := some record.createdAt
               updatedAt := some record.updatedAt }, st2)
      | .error e =>
        match eff.deleteErr with
        | none => (.error e, { st1 with native := mapErase st1.native key })
        | some _ => (.error e, st1)

def nativeGetRecord (st : SysState) (key : String) : Option NativeRecord :=
  mapGet st.native key

/-- Native `remove(key)`: delete the native record, then the registry
pointer; both deletes are no-ops when the key is absent. -/
def nativeRemove (st : SysState) (key : String) : ApiResult × SysState :=
  if key = "" then ({ ok := false, reason := some "missing-key" }, st)
  else
    let st1 := { st with native := mapErase st.native key }
    let st2 := { st1 with registry := mapErase st1.registry key }
    ({ ok := true, key := some key }, st2)

/-- Per-handle permission probe: the injected `permissionRequester` applied
to the handle at a given position, either returning a state string or
throwing. -/
def ProbeFun : Type := Nat → String → Except Unit String

/-- The per-handle results pushed by the probe loop: position `i` holds the
probe's answer, downgraded to `'denied'` when the probe threw. -/
def probeResults (n : Nat) (m : String) (probe : Nat → String → Except Unit String) :
    List String :=
  (List.range n).map fun i =>
    match probe i m with
    | .ok s => s
    | .error _ => "denied"

/-- Native `requestPermissions(key, {mode})`: probe every stored handle
(a probe that throws is recorded as `'denied'` for that handle only),
aggregate the states, report stored counts. -/
def nativeRequestPermissions (st : SysState) (key : String)
    (mode : Option String) (probe : ProbeFun) : ApiResult :=
  match mapGet st.native key with
  | none => { ok := false, state := some "missing", reason := some "unknown-key" }
  | some record =>
    let m := mode.getD "read"
    let results := probeResults record.handles.length m probe
    let aggregate := aggregatePermissionState results
    { ok := aggregate = "granted"
      key := some key
      state := some aggregate
      counts := some
        { files := record.fileCount.getD 0
          directories := record.directoryCount.getD 0
          handles := record.handleCount.getD record.handles.length } }

/-! ### Transient session backend (§4.4) -/

def TRANSIENT_MISSING_MSG : String :=
  "persistEntries requires a non-empty entries array"
def TRANSIENT_INVALID_MSG : String :=
  "persistEntries expected File or entry-like objects"

/-- `persistEntries(entries, metadata)`: validate shape (raising
synchronously on violation), then store the session under the (possibly
caller-supplied) key and drop any tombstone for that key. -/
def persistEntries (ts : TransState) (rawEntries : List JsVal) (meta : Meta)
    (genKey : String) (now : Int) : Except String (ApiResult × TransState) :=
  let entries := rawEntries
  if entries.isEmpty then .error TRANSIENT_MISSING_MSG
  else if entries.any (fun e => !isTransientEntry e) then
    .error TRANSIENT_INVALID_MSG
  else
    let key := meta.key.getD genKey
    let createdAt := meta.createdAt.getD now
    let counts := summarizeTransientEntries entries
    let session : Session :=
      { key := key
        entries := entries
        createdAt := createdAt
        updatedAt := meta.updatedAt.getD createdAt
        counts := counts
        expiresReason := "page-unload"
        expiresMessage := DEFAULT_TRANSIENT_EXPIRATION_MESSAGE }
    .ok ({ ok := true
           key := some key
           storageType := some TRANSIENT_STORAGE_TYPE
           counts := some counts
           createdAt := some session.createdAt
           updatedAt := some session.updatedAt
           expiresReason := some session.expiresReason
           expiresMessage := some session.expiresMessage },
         { sessions := mapPut ts.sessions key session
           expired := mapErase ts.expired key })

/-- `expireAll(reason)`: sweep every active session into the tombstone map. -/
def expireAll (ts : TransState) (reason : String) (now : Int) :
    Nat × TransState :=
  if ts.sessions.isEmpty then (0, ts)
  else
    let expired' := ts.sessions.foldl
      (fun acc p =>
        mapPut acc p.2.key
          { status := "expired"
            reason := reason
            key := p.2.key
            expiredAt := now
            message := p.2.expiresMessage })
      ts.expired
    (ts.sessions.length, { sessions := [], expired := expired' })

def expireSession (ts : TransState) (key : String) (reason : String)
    (now : Int) : ApiResult × TransState :=
  match mapGet ts.sessions key with
  | none => ({ ok := false, reason := some "unknown-key" }, ts)
  | some session =>
    ({ ok := true, key := some key, reason := some reason },
     { sessions := mapErase ts.sessions key
       expired := mapPut ts.expired key
         { status := "expired"
           reason := reason
           key := key
           expiredAt := now
           message := session.expiresMessage } })

def transientGetSession (ts : TransState) (key : String) : Option Session :=
  mapGet ts.sessions key

/-- `getStatus(key)`: active session, tombstone, or missing. -/
structure StatusResult where
  status : String
  key : Option String := none
  reason : Option String := none
  expiredAt : Option Int := none
  message : Option String := none
  deriving Repr, DecidableEq

def transientGetStatus (ts : TransState) (key : String) : StatusResult :=
  match mapGet ts.sessions key with
  | some _ => { status := "active", key := some key }
  | none =>
    match mapGet ts.expired key with
    | some t =>
      { status := t.status, key := some t.key, reason := some t.reason
        expiredAt := some t.expiredAt, message := some t.message }
    | none => { status := "missing", reason := some "unknown-key", key := some key }

def transientRemove (ts : TransState) (key : String) : ApiResult × TransState :=
  let removedActive := (mapGet ts.sessions key).isSome
  let removedExpired := (mapGet ts.expired key).isSome
  let ts' : TransState :=
    { sessions := mapErase ts.sessions key, expired := mapErase ts.expired key }
  if removedActive || removedExpired then
    ({ ok := true, key := some key }, ts')
  else
    ({ ok := false, reason := some "unknown-key" }, ts')

/-! ### Dispatcher (§4.5) -/

structure Lookup where
  ok : Bool
  key : Option String := none
  storageType : Option String := none
  source : Option String := none
  reason : Option String := none
  record : Option RegRecord := none
  sessionVal : Option Session := none
  statusVal : Option StatusResult := none
  deriving Repr, DecidableEq

/-- `resolveStorageLookup`: registry first, then the active transient map,
then the tombstone map. In the embedding a registry record always carries
a storage type string (`registerKey` writes one), so the
`registryRecord.storageType ?? DEFAULT_STORAGE_TYPE` fallback is the
stored value itself. -/
def resolveStorageLookup (st : SysState) (key : String) : Lookup :=
  if key = "" then { ok := false, reason := some "missing-key" }
  else
    match registryGetRecord st key with
    | some r =>
      { ok := true, key := some key, storageType := some r.storageType
        source := some "registry", record := some r }
    | none =>
      match transientGetSession st.trans key with
      | some s =>
        { ok := true, key := some key, storageType := some TRANSIENT_STORAGE_TYPE
          source := some "transient-session", sessionVal := some s }
      | none =>
        let status := transientGetStatus st.trans key
        if status.status = "expired" then
          { ok := false, key := some key
            storageType := some TRANSIENT_STORAGE_TYPE
            reason := some "transient-expired", statusVal := some status }
        else { ok := false, key := some key, reason := some "unknown-key" }

def getStorageType (st : SysState) (key : String) : Lookup :=
  let lookup := resolveStorageLookup st key
  if !lookup.ok then lookup
  else
    { ok := true, key := some key, storageType := lookup.storageType
      source := lookup.source }

structure RecountResult where
  ok : Bool
  counts : Option Summary := none
  partialFlag : Option Bool := none
  reason : Option String := none
  record : Option NativeRecord := none
  deriving Repr, DecidableEq

/-- `recountNativeHandles`: re-traverse the stored handles afresh and
compare with the stored counts. The traversal of the handle model is a
pure total function, so the `traversal-error` catch branch of the source
cannot fire in the embedding. -/
def recountNativeHandles (st : SysState) (key : String) : RecountResult :=
  match nativeGetRecord st key with
  | none => { ok := false, reason := some "unknown-key" }
  | some record =>
    let counts := summarizeHandles record.handles
    let partialB := hasMissingEntries counts.files counts.directories
      record.fileCount record.files record.directoryCount record.directories
    { ok := true, counts := some counts, partialFlag := some partialB
      reason := if partialB then some "entries-missing" else none
      record := some record }

def getFileCount (st : SysState) (key : String) : ApiResult :=
  let lookup := resolveStorageLookup st key
  if !lookup.ok then
    { ok := false, reason := lookup.reason, storageType := lookup.storageType }
  else if lookup.storageType = some NATIVE_HANDLE_STORAGE_TYPE then
    let recount := recountNativeHandles st key
    if !recount.ok then
      { ok := false, reason := recount.reason, storageType := lookup.storageType }
    else
      { ok := true, key := some key, storageType := lookup.storageType
        counts := recount.counts, partialFlag := recount.partialFlag
        reason := if recount.partialFlag = some true then recount.reason else none }
  else if lookup.storageType = some TRANSIENT_STORAGE_TYPE then
    match lookup.sessionVal <|> transientGetSession st.trans key with
    | none =>
      { ok := false, reason := some "transient-expired"
        storageType := lookup.storageType }
    | some session =>
      { ok := true, key := some key, storageType := lookup.storageType
        counts := some (summarizeTransientEntries session.entries)
        partialFlag := some false
        expiresReason := some session.expiresReason
        expiresMessage := some session.expiresMessage }
  else { ok := false, reason := some "unsupported-storage" }

def removeOp (st : SysState) (key : String) : ApiResult × SysState :=
  let lookup := resolveStorageLookup st key
  if !lookup.ok then
    if lookup.reason = some "transient-expired" then
      let ts' := (transientRemove st.trans key).2
      ({ ok := true, key := some key, reason := some "transient-expired" },
       { st with trans := ts' })
    else ({ ok := false, reason := lookup.reason }, st)
  else if lookup.storageType = some NATIVE_HANDLE_STORAGE_TYPE then
    nativeRemove st key
  else if lookup.storageType = some TRANSIENT_STORAGE_TYPE then
    let (result, ts') := transientRemove st.trans key
    if !result.ok then
      ({ ok := false, reason := result.reason }, { st with trans := ts' })
    else (result, { st with trans := ts' })
  else ({ ok := false, reason := some "unsupported-storage" }, st)

def requestPermissionsOp (st : SysState) (key : String) (mode : Option String)
    (probe : ProbeFun) : ApiResult :=
  let lookup := resolveStorageLookup st key
  if !lookup.ok then
    { ok := false, reason := lookup.reason, storageType := lookup.storageType }
  else if lookup.storageType ≠ some NATIVE_HANDLE_STORAGE_TYPE then
    { ok := false, reason := some "unsupported-storage"
      storageType := lookup.storageType }
  else nativeRequestPermissions st key mode probe

/-- `add(selection, metadata)`: normalize, reject empty selections with a
structured result, route pure native batches to `persistHandles` and all
others to `persistEntries`, converting any raised backend error into a
structured `storage-failure` result. -/
def addOp (st : SysState) (selection : SelInput) (meta : Meta)
    (genKey : String) (now : Int) (eff : SagaEffects) : ApiResult × SysState :=
  let normalized := normalizeSelectionInput selection
  if normalized.isEmpty then ({ ok := false, reason := some "no-selection" }, st)
  else if isPureNativeSelection normalized then
    match persistHandles st normalized meta genKey now eff with
    | (.ok r, st') => (r, st')
    | (.error e, st') =>
      ({ ok := false, reason := some "storage-failure", errMsg := some e }, st')
  else
    match persistEntries st.trans normalized meta genKey now with
    | .ok (r, ts') => (r, { st with trans := ts' })
    | .error e =>
      ({ ok := false, reason := some "storage-failure", errMsg := some e }, st)

/-! ### Persistent store connector (§4.1, `defaultOpenDatabase`)

An IndexedDB database is a version plus a set of named object stores
(partitions); version `0` stands for a database that does not exist yet.
Opening with an explicit version below the current one raises
`VersionError`; opening above it runs the upgrade callback
(`ensureStores`) and bumps the version, unless a concurrent connection
blocks the upgrade (`BlockedError`); opening without a version connects
at the current version (creating the database at version 1 when absent).
`blockedSched` is the schedule of the environment's per-attempt "blocked"
signals. -/

structure IdbState where
  version : Nat
  stores : List String
  deriving Repr, DecidableEq

def DEFAULT_STORE_NAME : String := "registry"
def DEFAULT_NATIVE_HANDLE_STORE_NAME : String := "nativeHandles"

def addStoreIfAbsent (stores : List String) (name : String) : List String :=
  if name ∈ stores then stores else stores ++ [name]

/-- `ensureStores`: create the two statically defined partitions and the
requested one when they do not exist yet. -/
def ensureStores (stores : List String) (requestedStore : String) : List String :=
  addStoreIfAbsent
    (addStoreIfAbsent (addStoreIfAbsent stores DEFAULT_STORE_NAME)
      DEFAULT_NATIVE_HANDLE_STORE_NAME)
    requestedStore

inductive OpenErr where
  | versionErr
  | blockedErr
  | provisioningFailure
  deriving Repr, DecidableEq

def openAttempt (st : IdbState) (version : Option Nat) (storeName : String)
    (blocked : Bool) : Except OpenErr IdbState :=
  match version with
  | some v =>
    if v < st.version then .error .versionErr
    else if st.version < v then
      if blocked then .error .blockedErr
      else .ok { version := v, stores := ensureStores st.stores storeName }
    else .ok st
  | none =>
    if st.version = 0 then
      .ok { version := 1, stores := ensureStores st.stores storeName }
    else .ok st

def MAX_DB_MIGRATION_ATTEMPTS : Nat := 3

/-- The retry loop of `defaultOpenDatabase`, with the remaining attempt
budget as fuel. `currentVersion = none` mirrors `currentVersion =
undefined` (open without an explicit version). On success it returns the
final database state together with the opened connection's version. -/
def openDatabaseLoop (st : IdbState) (currentVersion : Option Nat)
    (storeName : String) (blockedSched : List Bool) :
    Nat → Except OpenErr (IdbState × Nat)
  | 0 => .error .provisioningFailure
  | fuel + 1 =>
    match openAttempt st currentVersion storeName (blockedSched.headD false) with
    | .error .versionErr =>
      openDatabaseLoop st none storeName blockedSched.tail fuel
    | .error .blockedErr =>
      openDatabaseLoop st none storeName blockedSched.tail fuel
    | .error e => .error e
    | .ok st' =>
      if storeName = "" ∨ storeName ∈ st'.stores then .ok (st', st'.version)
      else
        let nextVersion :=
          match currentVersion with
          | some c => if st'.version ≤ c then c + 1 else st'.version + 1
          | none => st'.version + 1
        openDatabaseLoop st' (some nextVersion) storeName blockedSched.tail fuel

def defaultOpenDatabase (st : IdbState) (version : Option Nat)
    (storeName : String) (blockedSched : List Bool) :
    Except OpenErr (IdbState × Nat) :=
  openDatabaseLoop st version storeName blockedSched MAX_DB_MIGRATION_ATTEMPTS

/-! ### Key uniqueness

JS `Map`s and IndexedDB object stores bind each key at most once; states
built by the operations of the module keep their association lists free
of duplicate keys. -/

def NodupKeys {α : Type} (m : List (String × α)) : Prop :=
  (m.map Prod.fst).Nodup

instance {α : Type} (m : List (String × α)) : Decidable (NodupKeys m) :=
  inferInstanceAs (Decidable (m.map Prod.fst).Nodup)

theorem mem_keys_mapPut {α : Type} (m : List (String × α)) (k : String) (v : α)
    (k' : String) :
    k' ∈ (mapPut m k v).map Prod.fst ↔ k' ∈ m.map Prod.fst ∨ k' = k := by
  induction m with
  | nil => simp [mapPut]
  | cons hd tl ih =>
    by_cases hk : k = hd.1
    · rw [mapPut_cons_eq hd tl k v hk]
      subst hk
      simp only [List.map_cons, List.mem_cons]
      tauto
    · rw [mapPut_cons_ne hd tl k v hk]
      simp only [List.map_cons, List.mem_cons, ih]
      tauto

theorem mem_keys_mapErase {α : Type} (m : List (String × α)) (k : String)
    (k' : String) (h : k' ∈ (mapErase m k).map Prod.fst) :
    k' ∈ m.map Prod.fst := by
  induction m with
  | nil => simp [mapErase] at h
  | cons hd tl ih =>
    by_cases hk : k = hd.1
    · rw [mapErase_cons_eq hd tl k hk] at h
      exact List.mem_cons_of_mem _ h
    · rw [mapErase_cons_ne hd tl k hk] at h
      simp only [List.map_cons, List.mem_cons] at h
      rcases h with h1 | h1
      · simp [h1]
      · exact List.mem_cons_of_mem _ (ih h1)

theorem nodupKeys_mapPut {α : Type} (m : List (String × α)) (k : String) (v : α)
    (h : NodupKeys m) : NodupKeys (mapPut m k v) := by
  induction m with
  | nil => simp [mapPut, NodupKeys]
  | cons hd tl ih =>
    unfold NodupKeys at h ⊢
    simp only [List.map_cons, List.nodup_cons] at h
    by_cases hk : k = hd.1
    · rw [mapPut_cons_eq hd tl k v hk]
      subst hk
      simp only [List.map_cons, List.nodup_cons]
      exact h
    · rw [mapPut_cons_ne hd tl k v hk]
      simp only [List.map_cons, List.nodup_cons]
      refine ⟨?_, ih h.2⟩
      intro hmem
      rcases (mem_keys_mapPut tl k v hd.1).mp hmem with h1 | h1
      · exact h.1 h1
      · exact hk h1.symm

theorem nodupKeys_mapErase {α : Type} (m : List (String × α)) (k : String)
    (h : NodupKeys m) : NodupKeys (mapErase m k) := by
  induction m with
  | nil => simp [mapErase, NodupKeys]
  | cons hd tl ih =>
    unfold NodupKeys at h ⊢
    simp only [List.map_cons, List.nodup_cons] at h
    by_cases hk : k = hd.1
    · rw [mapErase_cons_eq hd tl k hk]
      exact h.2
    · rw [mapErase_cons_ne hd tl k hk]
      simp only [List.map_cons, List.nodup_cons]
      exact ⟨fun hmem => h.1 (mem_keys_mapErase tl k hd.1 hmem), ih h.2⟩

/-! ### Concrete fixtures used by witnesses and counterexamples -/

/-- A file handle: `{kind: 'file', name}`. -/
def fileH (oid : Nat) (name : String) : JsVal :=
  .obj oid [("kind", .fvStr "file"), ("name", .fvStr name)] false []

/-- A directory handle with an async iterator over `children`. -/
def dirH (oid : Nat) (name : String) (children : List JsVal) : JsVal :=
  .obj oid [("kind", .fvStr "directory"), ("name", .fvStr name)] true children

/-- A file-like transient entry: `{name, size}`. -/
def tfile (oid : Nat) (name : String) : JsVal :=
  .obj oid [("name", .fvStr name), ("size", .fvNum 1)] false []

/-! ### Validation helpers -/

theorem isEmpty_false_of_ne_nil {α : Type} {l : List α} (h : l ≠ []) :
    l.isEmpty = false := by
  cases l with
  | nil => exact absurd rfl h
  | cons a t => rfl

theorem any_not_eq_false {l : List JsVal} (p : JsVal → Bool)
    (h : l.all p = true) : l.any (fun x => !p x) = false := by
  induction l with
  | nil => rfl
  | cons a t ih =>
    simp only [List.all_cons, Bool.and_eq_true] at h
    simp only [List.any_cons, h.1, Bool.not_true, Bool.false_or]
    exact ih h.2

theorem resolveStorageLookup_unknown (st : SysState) (key : String)
    (hkey : key ≠ "") (hreg : registryGetRecord st key = none)
    (hsess : transientGetSession st.trans key = none)
    (htomb : mapGet st.trans.expired key = none) :
    resolveStorageLookup st key =
      { ok := false, key := some key, reason := some "unknown-key" } := by
  have hmapsess : mapGet st.trans.sessions key = none := hsess
  simp [resolveStorageLookup, if_neg hkey, hreg, hsess, transientGetStatus,
    hmapsess, htomb]

/-! ### C1 -/

/-- C1: for every `persistHandles` call whose native-record write succeeds
but whose registry `registerKey` fails, the backend deletes the
just-written native record, propagates the registration error to the
caller, and swallows a failure of the compensating delete so the caller
still observes the original registration error (the registry itself is
left untouched in every case). -/
theorem persistHandles_saga_compensates_and_propagates
    (st : SysState) (handles : List JsVal) (meta : Meta) (genKey : String)
    (now : Int) (e : String) (delErr : Option String)
    (res : Except String ApiResult) (st' : SysState)
    (hnd : NodupKeys st.native)
    (hne : handles ≠ []) (hall : handles.all isFileSystemHandle = true)
    (hout : persistHandles st handles meta genKey now
      { putErr := none, registerErr := some e, deleteErr := delErr } = (res, st')) :
    res = .error e ∧
    st'.registry = st.registry ∧
    (delErr = none → mapGet st'.native (meta.key.getD genKey) = none) ∧
    (∀ d, delErr = some d →
      (mapGet st'.native (meta.key.getD genKey)).isSome = true) := by
  have hempty := isEmpty_false_of_ne_nil hne
  have hany := any_not_eq_false isFileSystemHandle hall
  simp only [persistHandles, hempty, hany, Bool.false_eq_true, if_false,
    registerKey] at hout
  cases delErr with
  | none =>
    simp only at hout
    cases hout
    refine ⟨rfl, rfl, fun _ => ?_, fun d hd => Option.noConfusion hd⟩
    rw [mapGet_mapErase _ _ _ (nodupKeys_mapPut _ _ _ hnd)]
    simp
  | some d =>
    simp only at hout
    cases hout
    refine ⟨rfl, rfl, fun hc => Option.noConfusion hc, fun d' _ => ?_⟩
    rw [mapGet_mapPut_self]
    rfl

/-- Witness for C1 at a concrete input: one file handle, registration
failing with `store-unavailable`, compensation succeeding. -/
theorem persistHandles_saga_compensates_and_propagates_witness :
    (persistHandles initState [fileH 1 "a"] {} "gen" 7
        { putErr := none, registerErr := some "store-unavailable",
          deleteErr := none }).1 = .error "store-unavailable" ∧
    mapGet (persistHandles initState [fileH 1 "a"] {} "gen" 7
        { putErr := none, registerErr := some "store-unavailable",
          deleteErr := none }).2.native "gen" = none := by
  have h := persistHandles_saga_compensates_and_propagates initState
    [fileH 1 "a"] {} "gen" 7 "store-unavailable" none
    (persistHandles initState [fileH 1 "a"] {} "gen" 7
      { putErr := none, registerErr := some "store-unavailable",
        deleteErr := none }).1
    (persistHandles initState [fileH 1 "a"] {} "gen" 7
      { putErr := none, registerErr := some "store-unavailable",
        deleteErr := none }).2
    (by decide) (by decide) (by decide) rfl
  exact ⟨h.1, h.2.2.1 rfl⟩

/-! ### C9 -/

/-- C9: for every valid non-empty handle array, `persistHandles` followed by
`getRecord` on the returned key yields a record whose `handles` list is the
input list itself (hence of identical length and order), and whose stored
`fileCount`, `directoryCount` and `handleCount` equal the independent
recount `summarizeHandles` of that same handle set, which is also the
`counts` object of the returned result. -/
theorem persistHandles_getRecord_roundtrip
    (st : SysState) (handles : List JsVal) (meta : Meta) (genKey : String)
    (now : Int) (res : Except String ApiResult) (st' : SysState)
    (hne : handles ≠ []) (hall : handles.all isFileSystemHandle = true)
    (hout : persistHandles st handles meta genKey now noFailures = (res, st')) :
    ∃ rec : NativeRecord,
      nativeGetRecord st' (meta.key.getD genKey) = some rec ∧
      rec.handles = handles ∧
      rec.fileCount = some (summarizeHandles handles).files ∧
      rec.directoryCount = some (summarizeHandles handles).directories ∧
      rec.handleCount = some (summarizeHandles handles).handles ∧
      res = .ok
        { ok := true
          key := some (meta.key.getD genKey)
          storageType := some NATIVE_HANDLE_STORAGE_TYPE
          counts := some (summarizeHandles handles)
          createdAt := some (meta.createdAt.getD now)
          updatedAt := some (meta.updatedAt.getD (meta.createdAt.getD now)) } := by
  have hempty := isEmpty_false_of_ne_nil hne
  have hany := any_not_eq_false isFileSystemHandle hall
  simp only [persistHandles, noFailures, hempty, hany, Bool.false_eq_true,
    if_false, registerKey] at hout
  cases hout
  have hget :
      nativeGetRecord
        { registry := mapPut st.registry (meta.key.getD genKey)
            { key := meta.key.getD genKey
              storageType := NATIVE_HANDLE_STORAGE_TYPE
              createdAt := meta.createdAt.getD now
              updatedAt := meta.updatedAt.getD (meta.createdAt.getD now) }
          native := mapPut st.native (meta.key.getD genKey)
            { key := meta.key.getD genKey
              handles := handles
              createdAt := meta.createdAt.getD now
              updatedAt := meta.updatedAt.getD (meta.createdAt.getD now)
              fileCount := some (summarizeHandles handles).files
              directoryCount := some (summarizeHandles handles).directories
              handleCount := some (summarizeHandles handles).handles }
          trans := st.trans } (meta.key.getD genKey) =
      some
        { key := meta.key.getD genKey
          handles := handles
          createdAt := meta.createdAt.getD now
          updatedAt := meta.updatedAt.getD (meta.createdAt.getD now)
          fileCount := some (summarizeHandles handles).files
          directoryCount := some (summarizeHandles handles).directories
          handleCount := some (summarizeHandles handles).handles } := by
    simp only [nativeGetRecord]
    rw [mapGet_mapPut_self]
  exact ⟨_, hget, rfl, rfl, rfl, rfl, rfl⟩

/-- Witness for C9 at a concrete input: a directory holding one file plus a
sibling file handle. -/
theorem persistHandles_getRecord_roundtrip_witness :
    ∃ rec : NativeRecord,
      nativeGetRecord (persistHandles initState
          [dirH 1 "d" [fileH 2 "in"], fileH 3 "f"] {} "gen" 7 noFailures).2
        "gen" = some rec ∧
      rec.handles = [dirH 1 "d" [fileH 2 "in"], fileH 3 "f"] ∧
      rec.fileCount =
        some (summarizeHandles [dirH 1 "d" [fileH 2 "in"], fileH 3 "f"]).files ∧
      rec.directoryCount =
        some (summarizeHandles [dirH 1 "d" [fileH 2 "in"], fileH 3 "f"]).directories ∧
      rec.handleCount =
        some (summarizeHandles [dirH 1 "d" [fileH 2 "in"], fileH 3 "f"]).handles ∧
      (persistHandles initState [dirH 1 "d" [fileH 2 "in"], fileH 3 "f"] {}
          "gen" 7 noFailures).1 = .ok
        { ok := true
          key := some "gen"
          storageType := some NATIVE_HANDLE_STORAGE_TYPE
          counts := some (summarizeHandles [dirH 1 "d" [fileH 2 "in"], fileH 3 "f"])
          createdAt := some 7
          updatedAt := some 7 } :=
  persistHandles_getRecord_roundtrip initState
    [dirH 1 "d" [fileH 2 "in"], fileH 3 "f"] {} "gen" 7
    (persistHandles initState [dirH 1 "d" [fileH 2 "in"], fileH 3 "f"] {}
      "gen" 7 noFailures).1
    (persistHandles initState [dirH 1 "d" [fileH 2 "in"], fileH 3 "f"] {}
      "gen" 7 noFailures).2
    (by decide) (by decide) rfl

/-! ### C3 -/

/-- C3: a non-empty normalized selection is routed by `add` to the native
backend if and only if every item satisfies handle-shape validation;
otherwise the entire batch — handle-shaped members included — goes to the
transient backend via `persistEntries`. The whole list is handed to one
backend, so a mixed batch is never split. -/
theorem add_routes_pure_native_batches_only
    (st : SysState) (items : List JsVal) (meta : Meta) (genKey : String)
    (now : Int) (eff : SagaEffects) (hne : items ≠ []) :
    (isPureNativeSelection items = true ↔ items.all isFileSystemHandle = true) ∧
    (items.all isFileSystemHandle = true →
      addOp st (.arr items) meta genKey now eff =
        (match persistHandles st items meta genKey now eff with
         | (.ok r, st') => (r, st')
         | (.error e, st') =>
           ({ ok := false, reason := some "storage-failure", errMsg := some e },
            st'))) ∧
    (items.all isFileSystemHandle = false →
      addOp st (.arr items) meta genKey now eff =
        (match persistEntries st.trans items meta genKey now with
         | .ok (r, ts') => (r, { st with trans := ts' })
         | .error e =>
           ({ ok := false, reason := some "storage-failure", errMsg := some e },
            st))) := by
  have hempty := isEmpty_false_of_ne_nil hne
  refine ⟨?_, ?_, ?_⟩
  · simp [isPureNativeSelection, hempty]
  · intro hall
    have hpure : isPureNativeSelection items = true := by
      simp [isPureNativeSelection, hempty, hall]
    simp only [addOp, normalizeSelectionInput, hempty, Bool.false_eq_true,
      if_false, hpure, if_true]
  · intro hall
    have hpure : isPureNativeSelection items = false := by
      simp [isPureNativeSelection, hempty, hall]
    simp only [addOp, normalizeSelectionInput, hempty, hpure,
      Bool.false_eq_true, if_false]

/-- Witness for C3 at a concrete mixed batch: one handle-shaped item plus
one file-like item is routed, whole, to the transient backend. -/
theorem add_routes_pure_native_batches_only_witness :
    addOp initState (.arr [fileH 1 "a", tfile 2 "t"]) {} "gen" 0 noFailures =
      (match persistEntries initState.trans [fileH 1 "a", tfile 2 "t"] {}
          "gen" 0 with
       | .ok (r, ts') => (r, { initState with trans := ts' })
       | .error e =>
         ({ ok := false, reason := some "storage-failure", errMsg := some e },
          initState)) :=
  (add_routes_pure_native_batches_only initState [fileH 1 "a", tfile 2 "t"]
    {} "gen" 0 noFailures (by decide)).2.2 (by decide)

/-! ### C6 -/

/-- C6 counterexample: a shape-validation failure reaching `add` does not
raise at the call site — `add([42])` returns the structured result
`{ok: false, reason: 'storage-failure'}` carrying the backend's validation
error, because `add` wraps both backends in a catch-all. -/
theorem add_shape_validation_returns_structured_result :
    addOp initState (.arr [JsVal.nonObj]) {} "gen" 0 noFailures =
      ({ ok := false, reason := some "storage-failure",
         errMsg := some TRANSIENT_INVALID_MSG }, initState) := by decide

/-- C6 (amended): input-shape validation failures raise synchronously in
`persistHandles` and `persistEntries` (leaving state untouched); `add`
never raises — it rejects empty selections with `{ok:false,
reason:'no-selection'}` and converts any backend raise, shape-validation
raises included, into `{ok:false, reason:'storage-failure'}`; other public
API failures are likewise returned as structured `{ok:false, reason}`
results, e.g. `getFileCount` on an unknown key. -/
theorem shape_validation_raises_only_in_backends
    (st : SysState) (meta : Meta) (genKey : String) (now : Int)
    (eff : SagaEffects) (key : String) (items handles entries : List JsVal)
    (v w : JsVal) (e : String)
    (hv : v ∈ handles) (hvbad : isFileSystemHandle v = false)
    (hw : w ∈ entries) (hwbad : isTransientEntry w = false)
    (hitems : items ≠ []) (hmixed : isPureNativeSelection items = false)
    (hraise : persistEntries st.trans items meta genKey now = .error e)
    (hkey : key ≠ "") (hreg : registryGetRecord st key = none)
    (hsess : transientGetSession st.trans key = none)
    (htomb : mapGet st.trans.expired key = none) :
    persistHandles st [] meta genKey now eff =
      (.error MISSING_SELECTION_MSG, st) ∧
    persistHandles st handles meta genKey now eff =
      (.error INVALID_HANDLE_MSG, st) ∧
    persistEntries st.trans [] meta genKey now = .error TRANSIENT_MISSING_MSG ∧
    persistEntries st.trans entries meta genKey now =
      .error TRANSIENT_INVALID_MSG ∧
    addOp st (.arr []) meta genKey now eff =
      ({ ok := false, reason := some "no-selection" }, st) ∧
    addOp st (.arr items) meta genKey now eff =
      ({ ok := false, reason := some "storage-failure", errMsg := some e }, st) ∧
    getFileCount st key = { ok := false, reason := some "unknown-key" } := by
  have hhne : handles ≠ [] := fun hnil => by subst hnil; cases hv
  have hene : entries ≠ [] := fun hnil => by subst hnil; cases hw
  have hhany : handles.any (fun h => !isFileSystemHandle h) = true := by
    rw [List.any_eq_true]
    exact ⟨v, hv, by simp [hvbad]⟩
  have heany : entries.any (fun x => !isTransientEntry x) = true := by
    rw [List.any_eq_true]
    exact ⟨w, hw, by simp [hwbad]⟩
  have hlookup := resolveStorageLookup_unknown st key hkey hreg hsess htomb
  refine ⟨?_, ?_, ?_, ?_, ?_, ?_, ?_⟩
  · simp [persistHandles]
  · simp [persistHandles, isEmpty_false_of_ne_nil hhne, hhany]
  · simp [persistEntries]
  · simp [persistEntries, isEmpty_false_of_ne_nil hene, heany]
  · simp [addOp, normalizeSelectionInput]
  · simp only [addOp, normalizeSelectionInput,
      isEmpty_false_of_ne_nil hitems, Bool.false_eq_true, if_false, hmixed,
      hraise]
  · simp only [getFileCount, hlookup]
    rfl

/-- Witness for the amended C6 at concrete inputs. -/
theorem shape_validation_raises_only_in_backends_witness :
    persistHandles initState [JsVal.nonObj] {} "gen" 0 noFailures =
      (.error INVALID_HANDLE_MSG, initState) ∧
    addOp initState (.arr [JsVal.nonObj]) {} "gen" 0 noFailures =
      ({ ok := false, reason := some "storage-failure",
         errMsg := some TRANSIENT_INVALID_MSG }, initState) ∧
    getFileCount initState "nope" = { ok := false, reason := some "unknown-key" } := by
  have h := shape_validation_raises_only_in_backends initState {} "gen" 0
    noFailures "nope" [JsVal.nonObj] [JsVal.nonObj] [JsVal.nonObj]
    JsVal.nonObj JsVal.nonObj TRANSIENT_INVALID_MSG
    (by decide) (by decide) (by decide) (by decide) (by decide) (by decide)
    (by decide) (by decide) (by decide) (by decide) (by decide)
  exact ⟨h.2.1, h.2.2.2.2.2.1, h.2.2.2.2.2.2⟩

/-! ### C4 -/

/-- C4: `getFileCount` on a native key re-traverses the stored handles
afresh — its `counts` are `summarizeHandles` of the record's handles, not
the stored counts — and whenever the fresh file or directory count is
lower than the stored count the result still carries `ok: true` but with
`partial: true` and reason `'entries-missing'`; without drift `partial`
is `false` and no reason is attached. -/
theorem getFileCount_recounts_fresh_and_reports_drift
    (st : SysState) (key : String) (reg : RegRecord) (rec : NativeRecord)
    (hkey : key ≠ "")
    (hreg : registryGetRecord st key = some reg)
    (htype : reg.storageType = NATIVE_HANDLE_STORAGE_TYPE)
    (hrec : nativeGetRecord st key = some rec) :
    (getFileCount st key).ok = true ∧
    (getFileCount st key).counts = some (summarizeHandles rec.handles) ∧
    (getFileCount st key).partialFlag =
      some (hasMissingEntries (summarizeHandles rec.handles).files
        (summarizeHandles rec.handles).directories rec.fileCount rec.files
        rec.directoryCount rec.directories) ∧
    (hasMissingEntries (summarizeHandles rec.handles).files
        (summarizeHandles rec.handles).directories rec.fileCount rec.files
        rec.directoryCount rec.directories = true →
      (getFileCount st key).reason = some "entries-missing") ∧
    (hasMissingEntries (summarizeHandles rec.handles).files
        (summarizeHandles rec.handles).directories rec.fileCount rec.files
        rec.directoryCount rec.directories = false →
      (getFileCount st key).reason = none) := by
  have hlookup : resolveStorageLookup st key =
      { ok := true, key := some key, storageType := some reg.storageType
        source := some "registry", record := some reg } := by
    simp [resolveStorageLookup, if_neg hkey, hreg]
  have hrecount : recountNativeHandles st key =
      { ok := true, counts := some (summarizeHandles rec.handles)
        partialFlag := some (hasMissingEntries (summarizeHandles rec.handles).files
          (summarizeHandles rec.handles).directories rec.fileCount rec.files
          rec.directoryCount rec.directories)
        reason := if hasMissingEntries (summarizeHandles rec.handles).files
            (summarizeHandles rec.handles).directories rec.fileCount rec.files
            rec.directoryCount rec.directories then some "entries-missing" else none
        record := some rec } := by
    simp [recountNativeHandles, hrec]
  cases hdrift : hasMissingEntries (summarizeHandles rec.handles).files
      (summarizeHandles rec.handles).directories rec.fileCount rec.files
      rec.directoryCount rec.directories with
  | false =>
    simp [getFileCount, hlookup, htype, hrecount, hdrift]
  | true =>
    simp [getFileCount, hlookup, htype, hrecount, hdrift]

/-- Drift fixtures: a record stored with `fileCount = 2` whose handles now
yield a single file. -/
def driftReg : RegRecord :=
  { key := "k", storageType := "native-handle", createdAt := 0, updatedAt := 0 }

def driftRec : NativeRecord :=
  { key := "k", handles := [fileH 1 "a"], createdAt := 0, updatedAt := 0
    fileCount := some 2, directoryCount := some 0, handleCount := some 1 }

def driftState : SysState :=
  { registry := [("k", driftReg)], native := [("k", driftRec)], trans := ⟨[], []⟩ }

/-- Witness for C4: the record stored with `fileCount 2` whose handles now
yield only 1 file reports `{ok: true, partial: true,
reason: 'entries-missing'}` with the fresh count. -/
theorem getFileCount_recounts_fresh_and_reports_drift_witness :
    (getFileCount driftState "k").ok = true ∧
    (getFileCount driftState "k").counts = some ⟨1, 0, 1⟩ ∧
    (getFileCount driftState "k").partialFlag = some true ∧
    (getFileCount driftState "k").reason = some "entries-missing" := by
  have h := getFileCount_recounts_fresh_and_reports_drift driftState "k"
    driftReg driftRec (by decide) (by decide) (by decide) (by decide)
  refine ⟨h.1, ?_, ?_, h.2.2.2.1 (by decide)⟩
  · rw [h.2.1]
    decide
  · rw [h.2.2.1]
    decide

/-! ### C5 -/

/-- C5: `requestPermissions` on a native key probes each stored handle and
aggregates with the policy all-`granted` → `granted`, else any-`denied` →
`denied`, else any-`prompt` → `prompt`, else `unknown`; a throwing probe is
recorded as `denied` for that handle only and the call still completes; in
particular over three handles with one throwing probe the aggregate state
is `denied` and `counts.handles` is 3. -/
theorem requestPermissions_aggregation_policy
    (st : SysState) (key : String) (reg : RegRecord) (rec : NativeRecord)
    (mode : Option String) (probe : ProbeFun) (states : List String) (i : Nat)
    (hkey : key ≠ "")
    (hreg : registryGetRecord st key = some reg)
    (htype : reg.storageType = NATIVE_HANDLE_STORAGE_TYPE)
    (hrec : nativeGetRecord st key = some rec)
    (hsne : states ≠ [])
    (hlen : rec.handles.length = 3)
    (hcount : rec.handleCount = some 3 ∨ rec.handleCount = none)
    (hi : i < rec.handles.length)
    (hthrow : probe i (mode.getD "read") = .error ()) :
    (states.all (fun s => s = "granted") = true →
      aggregatePermissionState states = "granted") ∧
    (states.any (fun s => s = "denied") = true →
      aggregatePermissionState states = "denied") ∧
    (states.any (fun s => s = "denied") = false →
      states.any (fun s => s = "prompt") = true →
      aggregatePermissionState states = "prompt") ∧
    (states.all (fun s => s = "granted") = false →
      states.any (fun s => s = "denied") = false →
      states.any (fun s => s = "prompt") = false →
      aggregatePermissionState states = "unknown") ∧
    requestPermissionsOp st key mode probe =
      nativeRequestPermissions st key mode probe ∧
    (requestPermissionsOp st key mode probe).state =
      some (aggregatePermissionState
        (probeResults rec.handles.length (mode.getD "read") probe)) ∧
    (requestPermissionsOp st key mode probe).state = some "denied" ∧
    (requestPermissionsOp st key mode probe).counts =
      some { files := rec.fileCount.getD 0
             directories := rec.directoryCount.getD 0
             handles := rec.handleCount.getD rec.handles.length } ∧
    ((requestPermissionsOp st key mode probe).counts.map Summary.handles) =
      some 3 := by
  have hempty := isEmpty_false_of_ne_nil hsne
  have hlookup : resolveStorageLookup st key =
      { ok := true, key := some key, storageType := some reg.storageType
        source := some "registry", record := some reg } := by
    simp [resolveStorageLookup, if_neg hkey, hreg]
  have hop : requestPermissionsOp st key mode probe =
      nativeRequestPermissions st key mode probe := by
    simp [requestPermissionsOp, hlookup, htype, NATIVE_HANDLE_STORAGE_TYPE]
  have hdenmem : "denied" ∈ probeResults rec.handles.length (mode.getD "read") probe := by
    rw [probeResults]
    refine List.mem_map.mpr ⟨i, List.mem_range.mpr hi, ?_⟩
    rw [hthrow]
  have hagg : aggregatePermissionState
      (probeResults rec.handles.length (mode.getD "read") probe) = "denied" := by
    have hne : probeResults rec.handles.length (mode.getD "read") probe ≠ [] := by
      intro hnil
      rw [hnil] at hdenmem
      cases hdenmem
    have hallf : (probeResults rec.handles.length (mode.getD "read") probe).all
        (fun s => s = "granted") = false := by
      cases hall : (probeResults rec.handles.length (mode.getD "read") probe).all
          (fun s => s = "granted") with
      | false => rfl
      | true =>
        have := List.all_eq_true.mp hall _ hdenmem
        simp at this
    have hden : (probeResults rec.handles.length (mode.getD "read") probe).any
        (fun s => s = "denied") = true :=
      List.any_eq_true.mpr ⟨"denied", hdenmem, by simp⟩
    simp [aggregatePermissionState, isEmpty_false_of_ne_nil hne, hallf, hden]
  have hnat : nativeRequestPermissions st key mode probe =
      { ok := decide (aggregatePermissionState
          (probeResults rec.handles.length (mode.getD "read") probe) = "granted")
        key := some key
        state := some (aggregatePermissionState
          (probeResults rec.handles.length (mode.getD "read") probe))
        counts := some { files := rec.fileCount.getD 0
                         directories := rec.directoryCount.getD 0
                         handles := rec.handleCount.getD rec.handles.length } } := by
    have : mapGet st.native key = some rec := hrec
    simp [nativeRequestPermissions, this]
  refine ⟨?_, ?_, ?_, ?_, hop, ?_, ?_, ?_, ?_⟩
  · intro hall
    simp [aggregatePermissionState, hempty, hall]
  · intro hden
    have hallf : states.all (fun s => s = "granted") = false := by
      rcases List.any_eq_true.mp hden with ⟨x, hx, hxd⟩
      simp only [decide_eq_true_eq] at hxd
      cases hall : states.all (fun s => s = "granted") with
      | false => rfl
      | true =>
        have hg := List.all_eq_true.mp hall _ hx
        simp only [decide_eq_true_eq] at hg
        exact absurd (hg.symm.trans hxd) (by decide)
    simp [aggregatePermissionState, hempty, hallf, hden]
  · intro hdenf hprompt
    have hallf : states.all (fun s => s = "granted") = false := by
      rcases List.any_eq_true.mp hprompt with ⟨x, hx, hxp⟩
      simp only [decide_eq_true_eq] at hxp
      cases hall : states.all (fun s => s = "granted") with
      | false => rfl
      | true =>
        have hg := List.all_eq_true.mp hall _ hx
        simp only [decide_eq_true_eq] at hg
        exact absurd (hg.symm.trans hxp) (by decide)
    simp [aggregatePermissionState, hempty, hallf, hdenf, hprompt]
  · intro hallf hdenf hpromptf
    simp [aggregatePermissionState, hempty, hallf, hdenf, hpromptf]
  · rw [hop, hnat]
  · rw [hop, hnat, hagg]
  · rw [hop, hnat]
  · rw [hop, hnat]
    have hget : rec.handleCount.getD rec.handles.length = 3 := by
      rcases hcount with h | h
      · simp [h]
      · simp [h, hlen]
    simp [hget]

/-- Permission fixtures: three stored file handles with a probe that throws
at position 1 and grants elsewhere. -/
def permReg : RegRecord :=
  { key := "p", storageType := "native-handle", createdAt := 0, updatedAt := 0 }

def permRec : NativeRecord :=
  { key := "p", handles := [fileH 1 "a", fileH 2 "b", fileH 3 "c"]
    createdAt := 0, updatedAt := 0, fileCount := some 3
    directoryCount := some 0, handleCount := some 3 }

def permState : SysState :=
  { registry := [("p", permReg)], native := [("p", permRec)], trans := ⟨[], []⟩ }

def throwyProbe : ProbeFun := fun i _ => if i = 1 then .error () else .ok "granted"

/-- Witness for C5: scenario D — three handles, one throwing probe, aggregate
`denied`, `counts.handles = 3`. -/
theorem requestPermissions_aggregation_policy_witness :
    (requestPermissionsOp permState "p" none throwyProbe).state = some "denied" ∧
    ((requestPermissionsOp permState "p" none throwyProbe).counts.map
      Summary.handles) = some 3 := by
  have h := requestPermissions_aggregation_policy permState "p" permReg permRec
    none throwyProbe ["granted"] 1 (by decide) (by decide) (by decide)
    (by decide) (by decide) (by decide) (by decide) (by decide) (by decide)
  exact ⟨h.2.2.2.2.2.2.1, h.2.2.2.2.2.2.2.2⟩

/-! ### C7 -/

/-- C7: removing a key that is absent from every store returns the
structured not-found result `{ok: false, reason: 'unknown-key'}` without
raising and without touching state; the native backend's `remove` of a
non-existent key (record delete, then registry pointer delete) is a
successful no-op returning `{ok: true, key}`; and a native key already
removed by a first `remove` yields the same not-found result on a second
`remove`. -/
theorem remove_absent_key_is_safe
    (st st₂ : SysState) (key : String) (reg : RegRecord)
    (hkey : key ≠ "")
    (hreg : registryGetRecord st key = none)
    (hsess : transientGetSession st.trans key = none)
    (htomb : mapGet st.trans.expired key = none)
    (hnat : mapGet st.native key = none)
    (hreg₂ : registryGetRecord st₂ key = some reg)
    (htype₂ : reg.storageType = NATIVE_HANDLE_STORAGE_TYPE)
    (hnd₂ : NodupKeys st₂.registry)
    (hsess₂ : transientGetSession st₂.trans key = none)
    (htomb₂ : mapGet st₂.trans.expired key = none) :
    removeOp st key = ({ ok := false, reason := some "unknown-key" }, st) ∧
    nativeRemove st key = ({ ok := true, key := some key }, st) ∧
    removeOp (removeOp st₂ key).2 key =
      ({ ok := false, reason := some "unknown-key" }, (removeOp st₂ key).2) := by
  have hlookup := resolveStorageLookup_unknown st key hkey hreg hsess htomb
  refine ⟨?_, ?_, ?_⟩
  · simp [removeOp, hlookup]
  · have hregmap : mapGet st.registry key = none := hreg
    simp only [nativeRemove, if_neg hkey, mapGet_mapErase_self _ _ hnat]
    rw [mapGet_mapErase_self _ _ hregmap]
  · have hlookup₂ : resolveStorageLookup st₂ key =
        { ok := true, key := some key, storageType := some reg.storageType
          source := some "registry", record := some reg } := by
      simp [resolveStorageLookup, if_neg hkey, hreg₂]
    have hfirst : removeOp st₂ key =
        ({ ok := true, key := some key },
         { st₂ with native := mapErase st₂.native key
                    registry := mapErase st₂.registry key }) := by
      simp [removeOp, hlookup₂, htype₂, nativeRemove, if_neg hkey]
    rw [hfirst]
    have hreg' : registryGetRecord
        { st₂ with native := mapErase st₂.native key
                   registry := mapErase st₂.registry key } key = none := by
      simp only [registryGetRecord]
      rw [mapGet_mapErase _ _ _ hnd₂]
      simp
    have hlookup' := resolveStorageLookup_unknown
      { st₂ with native := mapErase st₂.native key
                 registry := mapErase st₂.registry key }
      key hkey hreg' hsess₂ htomb₂
    simp [removeOp, hlookup']

/-- Witness for C7: removing the never-stored key `"k"` from the empty
state, a native no-op remove of the same key, and the double-remove of the
registered native key `"k"` in the drift fixture state. -/
theorem remove_absent_key_is_safe_witness :
    removeOp initState "k" =
      ({ ok := false, reason := some "unknown-key" }, initState) ∧
    nativeRemove initState "k" =
      ({ ok := true, key := some "k" }, initState) ∧
    removeOp (removeOp driftState "k").2 "k" =
      ({ ok := false, reason := some "unknown-key" }, (removeOp driftState "k").2) :=
  remove_absent_key_is_safe initState driftState "k" driftReg
    (by decide) (by decide) (by decide) (by decide) (by decide)
    (by decide) (by decide) (by decide) (by decide) (by decide)

/-! ### C8 -/

/-- All registry records carry the `native-handle` storage type — the state
the dispatcher alone maintains, since `add` registers native selections
under `native-handle` and never registers transient ones. -/
def RegistryNativeOnly (st : SysState) : Bool :=
  st.registry.all (fun p => p.2.storageType = NATIVE_HANDLE_STORAGE_TYPE)

/-- The registry state produced by `registerKey('k', {})`. -/
def uninitRegRecord : RegRecord :=
  { key := "k", storageType := "uninitialized", createdAt := 0, updatedAt := 0 }

def uninitState : SysState :=
  { registry := [("k", uninitRegRecord)], native := [], trans := ⟨[], []⟩ }

/-- C8 counterexample: registering a key through the registry's
`registerKey` with no storage-type metadata (its documented default) makes
`getStorageType` resolve that key to the storage type `'uninitialized'` —
an ok result that is neither `'native-handle'` nor `'transient-session'`
and carries no not-found reason. -/
theorem getStorageType_uninitialized_counterexample :
    registerKey initState (some "k") {} "gen" 0 none =
      .ok (uninitRegRecord, uninitState) ∧
    (getStorageType uninitState "k").ok = true ∧
    (getStorageType uninitState "k").storageType = some "uninitialized" ∧
    (getStorageType uninitState "k").reason = none ∧
    "uninitialized" ≠ NATIVE_HANDLE_STORAGE_TYPE ∧
    "uninitialized" ≠ TRANSIENT_STORAGE_TYPE := by
  refine ⟨?_, ?_, ?_, ?_, ?_, ?_⟩ <;> decide

/-- C8 (amended): for every key, `getStorageType` returns a single result
and never resolves to both storage types; when every registry record
carries storage type `'native-handle'` — the invariant the dispatcher's
own operations establish from the initial state and preserve — the result
is exactly one of ok-`'native-handle'`, ok-`'transient-session'`, or a
not-found reason (`'missing-key'`, `'unknown-key'`,
`'transient-expired'`); a key registered without an explicit storage type
instead resolves to the registry default `'uninitialized'`. -/
theorem getStorageType_mutual_exclusion
    (st : SysState) (key : String)
    (hinv : RegistryNativeOnly st = true) :
    ¬((getStorageType st key).storageType = some NATIVE_HANDLE_STORAGE_TYPE ∧
      (getStorageType st key).storageType = some TRANSIENT_STORAGE_TYPE) ∧
    (((getStorageType st key).ok = true ∧
        (getStorageType st key).storageType = some NATIVE_HANDLE_STORAGE_TYPE ∧
        (getStorageType st key).reason = none) ∨
      ((getStorageType st key).ok = true ∧
        (getStorageType st key).storageType = some TRANSIENT_STORAGE_TYPE ∧
        (getStorageType st key).reason = none) ∨
      ((getStorageType st key).ok = false ∧
        ((getStorageType st key).reason = some "missing-key" ∨
          (getStorageType st key).reason = some "unknown-key" ∨
          (getStorageType st key).reason = some "transient-expired"))) ∧
    (∀ sel meta genKey now eff,
      RegistryNativeOnly (addOp st sel meta genKey now eff).2 = true) ∧
    (∀ k, RegistryNativeOnly (removeOp st k).2 = true) ∧
    RegistryNativeOnly initState = true := by
  refine ⟨?_, ?_, ?_, ?_, by decide⟩
  · rintro ⟨h1, h2⟩
    exact absurd (h1.symm.trans h2) (by decide)
  · by_cases hkey : key = ""
    · subst hkey
      right; right
      simp [getStorageType, resolveStorageLookup]
    · cases hreg : registryGetRecord st key with
      | some r =>
        have hmem := mapGet_eq_some_mem _ _ _ hreg
        have hty := List.all_eq_true.mp hinv _ hmem
        simp only [decide_eq_true_eq] at hty
        have hlookup : resolveStorageLookup st key =
            { ok := true, key := some key, storageType := some r.storageType
              source := some "registry", record := some r } := by
          simp [resolveStorageLookup, if_neg hkey, hreg]
        left
        simp [getStorageType, hlookup, hty]
      | none =>
        cases hsess : transientGetSession st.trans key with
        | some s =>
          have hlookup : resolveStorageLookup st key =
              { ok := true, key := some key
                storageType := some TRANSIENT_STORAGE_TYPE
                source := some "transient-session", sessionVal := some s } := by
            simp [resolveStorageLookup, if_neg hkey, hreg, hsess]
          right; left
          simp [getStorageType, hlookup]
        | none =>
          cases htomb : mapGet st.trans.expired key with
          | some t =>
            have hmapsess : mapGet st.trans.sessions key = none := hsess
            by_cases hts : t.status = "expired"
            · have hlookup : resolveStorageLookup st key =
                  { ok := false, key := some key
                    storageType := some TRANSIENT_STORAGE_TYPE
                    reason := some "transient-expired"
                    statusVal := some (transientGetStatus st.trans key) } := by
                simp [resolveStorageLookup, if_neg hkey, hreg, hsess,
                  transientGetStatus, hmapsess, htomb, hts]
              right; right
              simp [getStorageType, hlookup]
            · have hlookup : resolveStorageLookup st key =
                  { ok := false, key := some key
                    reason := some "unknown-key" } := by
                simp [resolveStorageLookup, if_neg hkey, hreg, hsess,
                  transientGetStatus, hmapsess, htomb, hts]
              right; right
              simp [getStorageType, hlookup]
          | none =>
            have hlookup := resolveStorageLookup_unknown st key hkey hreg hsess htomb
            right; right
            simp [getStorageType, hlookup]
  · intro sel meta genKey now eff
    rw [addOp]
    cases hn : normalizeSelectionInput sel with
    | nil => simpa using hinv
    | cons a l =>
      simp only [List.isEmpty_cons, Bool.false_eq_true, if_false]
      by_cases hpure : isPureNativeSelection (a :: l) = true
      · simp only [hpure, if_true]
        rw [persistHandles]
        by_cases hemp : (a :: l).isEmpty = true
        · simp at hemp
        · simp only [List.isEmpty_cons, Bool.false_eq_true, if_false]
          by_cases hany : (a :: l).any (fun h => !isFileSystemHandle h) = true
          · simp only [hany, if_true]
            simpa using hinv
          · simp only [Bool.not_eq_true] at hany
            simp only [hany, Bool.false_eq_true, if_false]
            cases eff.putErr with
            | some e => simpa using hinv
            | none =>
              simp only [registerKey]
              cases eff.registerErr with
              | none =>
                simp only
                exact all_mapPut _ _ _ _ hinv (by simp [NATIVE_HANDLE_STORAGE_TYPE])
              | some e =>
                cases eff.deleteErr with
                | none => simpa using hinv
                | some d => simpa using hinv
      · simp only [Bool.not_eq_true] at hpure
        simp only [hpure, Bool.false_eq_true, if_false]
        cases hpe : persistEntries st.trans (a :: l) meta genKey now with
        | ok pr => simpa using hinv
        | error e => simpa using hinv
  · intro k
    rw [removeOp]
    by_cases hok : (resolveStorageLookup st k).ok = true
    · simp only [hok, Bool.not_true, Bool.false_eq_true, if_false]
      by_cases hnat : (resolveStorageLookup st k).storageType =
          some NATIVE_HANDLE_STORAGE_TYPE
      · simp only [hnat, if_true]
        rw [nativeRemove]
        by_cases hk : k = ""
        · simpa [hk] using hinv
        · simp only [if_neg hk]
          exact all_mapErase _ _ _ hinv
      · simp only [hnat, if_false]
        by_cases htr : (resolveStorageLookup st k).storageType =
            some TRANSIENT_STORAGE_TYPE
        · simp only [htr, if_true]
          cases hrr : transientRemove st.trans k with
          | mk r ts' =>
            by_cases hro : r.ok = true
            · simpa [hro] using hinv
            · simpa [hro] using hinv
        · simp only [htr, if_false]
          simpa using hinv
    · simp only [Bool.not_eq_true] at hok
      simp only [hok, Bool.not_false, if_true]
      by_cases hexp : (resolveStorageLookup st k).reason = some "transient-expired"
      · simpa [hexp] using hinv
      · simpa [hexp] using hinv

/-- Witness for the amended C8 at the drift fixture state: its key resolves
to `native-handle` and not to both types. -/
theorem getStorageType_mutual_exclusion_witness :
    ¬((getStorageType driftState "k").storageType =
        some NATIVE_HANDLE_STORAGE_TYPE ∧
      (getStorageType driftState "k").storageType =
        some TRANSIENT_STORAGE_TYPE) ∧
    RegistryNativeOnly (removeOp driftState "k").2 = true :=
  ⟨(getStorageType_mutual_exclusion driftState "k" (by decide)).1,
   (getStorageType_mutual_exclusion driftState "k" (by decide)).2.2.2.1 "k"⟩

/-! ### C10 -/

/-- No key is simultaneously an active session and an expired tombstone. -/
def DisjointB (ts : TransState) : Bool :=
  ts.sessions.all (fun p => (mapGet ts.expired p.1).isNone)

theorem disjointB_iff (ts : TransState) :
    DisjointB ts = true ↔
      ∀ k, (mapGet ts.sessions k).isSome = true → mapGet ts.expired k = none := by
  constructor
  · intro h k hk
    cases hv : mapGet ts.sessions k with
    | none => rw [hv] at hk; cases hk
    | some v =>
      have hmem := mapGet_eq_some_mem _ _ _ hv
      have := List.all_eq_true.mp h _ hmem
      simpa [Option.isNone_iff_eq_none] using this
  · intro h
    rw [DisjointB, List.all_eq_true]
    intro p hp
    have := h p.1 (mapGet_isSome_of_mem _ _ hp)
    simp [this]

theorem nodupKeys_foldl_mapPut {α β : Type} (l : List β) (f : β → String)
    (g : β → α) (init : List (String × α)) (h : NodupKeys init) :
    NodupKeys (l.foldl (fun acc p => mapPut acc (f p) (g p)) init) := by
  induction l generalizing init with
  | nil => exact h
  | cons hd tl ih => exact ih _ (nodupKeys_mapPut _ _ _ h)

/-- C10: the transient backend never holds a key in both the active session
map and the expired-tombstone map — `persistEntries`, `expireSession`,
`expireAll` and `remove` all preserve key-uniqueness and disjointness of
the two maps; moreover `persistEntries` called with an explicit key whose
session previously expired deletes that key's tombstone and makes the key
active again (a resurrection transition). -/
theorem transient_maps_disjoint_and_resurrection
    (ts : TransState) (entries : List JsVal) (meta : Meta) (genKey : String)
    (now : Int) (key reason : String) (t : Tombstone)
    (hndS : NodupKeys ts.sessions) (hndE : NodupKeys ts.expired)
    (hdisj : DisjointB ts = true) :
    (∀ r ts', persistEntries ts entries meta genKey now = .ok (r, ts') →
      NodupKeys ts'.sessions ∧ NodupKeys ts'.expired ∧ DisjointB ts' = true) ∧
    (NodupKeys (expireSession ts key reason now).2.sessions ∧
      NodupKeys (expireSession ts key reason now).2.expired ∧
      DisjointB (expireSession ts key reason now).2 = true) ∧
    (NodupKeys (expireAll ts reason now).2.sessions ∧
      NodupKeys (expireAll ts reason now).2.expired ∧
      DisjointB (expireAll ts reason now).2 = true) ∧
    (NodupKeys (transientRemove ts key).2.sessions ∧
      NodupKeys (transientRemove ts key).2.expired ∧
      DisjointB (transientRemove ts key).2 = true) ∧
    (mapGet ts.expired key = some t → meta.key = some key →
      entries ≠ [] → entries.all isTransientEntry = true →
      ∃ r ts', persistEntries ts entries meta genKey now = .ok (r, ts') ∧
        (mapGet ts'.sessions key).isSome = true ∧
        mapGet ts'.expired key = none) := by
  refine ⟨?_, ?_, ?_, ?_, ?_⟩
  · intro r ts' hpe
    rw [persistEntries] at hpe
    by_cases he : entries.isEmpty = true
    · simp [he] at hpe
    · simp only [Bool.not_eq_true] at he
      simp only [he, Bool.false_eq_true, if_false] at hpe
      by_cases ha : entries.any (fun e => !isTransientEntry e) = true
      · simp [ha] at hpe
      · simp only [Bool.not_eq_true] at ha
        simp only [ha, Bool.false_eq_true, if_false, Except.ok.injEq,
          Prod.mk.injEq] at hpe
        obtain ⟨-, hts⟩ := hpe
        subst hts
        refine ⟨nodupKeys_mapPut _ _ _ hndS, nodupKeys_mapErase _ _ hndE, ?_⟩
        rw [disjointB_iff]
        intro k' hk'
        by_cases hkk : k' = meta.key.getD genKey
        · subst hkk
          rw [mapGet_mapErase _ _ _ hndE]
          simp
        · simp only at hk' ⊢
          rw [mapGet_mapPut_ne _ _ _ _ hkk] at hk'
          rw [mapGet_mapErase _ _ _ hndE, if_neg hkk]
          exact (disjointB_iff ts).mp hdisj k' hk'
  · rw [expireSession]
    cases hs : mapGet ts.sessions key with
    | none => exact ⟨hndS, hndE, hdisj⟩
    | some session =>
      refine ⟨nodupKeys_mapErase _ _ hndS, nodupKeys_mapPut _ _ _ hndE, ?_⟩
      rw [disjointB_iff]
      intro k' hk'
      by_cases hkk : k' = key
      · subst hkk
        rw [mapGet_mapErase _ _ _ hndS] at hk'
        simp at hk'
      · simp only at hk' ⊢
        rw [mapGet_mapErase _ _ _ hndS, if_neg hkk] at hk'
        rw [mapGet_mapPut_ne _ _ _ _ hkk]
        exact (disjointB_iff ts).mp hdisj k' hk'
  · rw [expireAll]
    by_cases hse : ts.sessions.isEmpty = true
    · simp only [hse, if_true]
      exact ⟨hndS, hndE, hdisj⟩
    · simp only [hse, Bool.false_eq_true, if_false]
      refine ⟨List.nodup_nil, ?_, rfl⟩
      exact nodupKeys_foldl_mapPut ts.sessions (fun p => p.2.key) _ _ hndE
  · have hsnd : (transientRemove ts key).2 =
        { sessions := mapErase ts.sessions key
          expired := mapErase ts.expired key } := by
      rw [transientRemove]
      by_cases hcond : ((mapGet ts.sessions key).isSome ||
          (mapGet ts.expired key).isSome) = true
      · simp [hcond]
      · simp [hcond]
    rw [hsnd]
    refine ⟨nodupKeys_mapErase _ _ hndS, nodupKeys_mapErase _ _ hndE, ?_⟩
    rw [disjointB_iff]
    intro k' hk'
    by_cases hkk : k' = key
    · subst hkk
      rw [mapGet_mapErase _ _ _ hndS] at hk'
      simp at hk'
    · simp only at hk' ⊢
      rw [mapGet_mapErase _ _ _ hndS, if_neg hkk] at hk'
      rw [mapGet_mapErase _ _ _ hndE, if_neg hkk]
      exact (disjointB_iff ts).mp hdisj k' hk'
  · intro htomb hkmeta hne hall
    have he := isEmpty_false_of_ne_nil hne
    have ha := any_not_eq_false isTransientEntry hall
    cases hpe : persistEntries ts entries meta genKey now with
    | error e =>
      rw [persistEntries] at hpe
      simp [he, ha] at hpe
    | ok pr =>
      obtain ⟨r0, ts0⟩ := pr
      have hpe2 := hpe
      rw [persistEntries] at hpe2
      simp only [he, Bool.false_eq_true, if_false, ha, Except.ok.injEq,
        Prod.mk.injEq] at hpe2
      obtain ⟨-, hts⟩ := hpe2
      refine ⟨r0, ts0, rfl, ?_, ?_⟩
      · rw [← hts]
        simp only [hkmeta, Option.getD_some]
        rw [mapGet_mapPut_self]
        rfl
      · rw [← hts]
        simp only [hkmeta, Option.getD_some]
        rw [mapGet_mapErase _ _ _ hndE]
        simp

/-- Transient fixtures: an expired tombstone under key `"s"`. -/
def tombFix : Tombstone :=
  { status := "expired", reason := "page-unload", key := "s", expiredAt := 5
    message := DEFAULT_TRANSIENT_EXPIRATION_MESSAGE }

def transFix : TransState := { sessions := [], expired := [("s", tombFix)] }

/-- Witness for C10: persisting entries under the previously expired key
`"s"` resurrects it — the tombstone is gone and the key is active. -/
theorem transient_maps_disjoint_and_resurrection_witness :
    ∃ r ts', persistEntries transFix [tfile 1 "t"] { key := some "s" } "g" 9 =
        .ok (r, ts') ∧
      (mapGet ts'.sessions "s").isSome = true ∧
      mapGet ts'.expired "s" = none :=
  (transient_maps_disjoint_and_resurrection transFix [tfile 1 "t"]
      { key := some "s" } "g" 9 "s" "r" tombFix
      (by decide) (by decide) (by decide)).2.2.2.2
    (by decide) (by decide) (by decide) (by decide)

/-! ### C2 -/

theorem openAttempt_version_mono (st : IdbState) (v : Option Nat) (s : String)
    (b : Bool) (st₁ : IdbState) (h : openAttempt st v s b = .ok st₁) :
    st.version ≤ st₁.version := by
  cases v with
  | some n =>
    by_cases hlow : n < st.version
    · simp [openAttempt, hlow] at h
    · by_cases hhigh : st.version < n
      · cases b with
        | true => simp [openAttempt, hlow, hhigh] at h
        | false =>
          simp only [openAttempt, hlow, if_false, hhigh, if_true,
            Bool.false_eq_true, Except.ok.injEq] at h
          subst h
          exact le_of_lt hhigh
      · simp only [openAttempt, hlow, if_false, hhigh, Except.ok.injEq] at h
        subst h
        exact le_refl _
  | none =>
    by_cases hz : st.version = 0
    · simp only [openAttempt, if_pos hz, Except.ok.injEq] at h
      subst h
      simp [hz]
    · simp only [openAttempt, if_neg hz, Except.ok.injEq] at h
      subst h
      exact le_refl _

theorem openAttempt_store_gain (st : IdbState) (v : Option Nat) (s : String)
    (b : Bool) (st₁ : IdbState) (h : openAttempt st v s b = .ok st₁)
    (hnot : s ∉ st.stores) (hmem : s ∈ st₁.stores) :
    st.version < st₁.version := by
  cases v with
  | some n =>
    by_cases hlow : n < st.version
    · simp [openAttempt, hlow] at h
    · by_cases hhigh : st.version < n
      · cases b with
        | true => simp [openAttempt, hlow, hhigh] at h
        | false =>
          simp only [openAttempt, hlow, if_false, hhigh, if_true,
            Bool.false_eq_true, Except.ok.injEq] at h
          subst h
          exact hhigh
      · simp only [openAttempt, hlow, if_false, hhigh, Except.ok.injEq] at h
        subst h
        exact absurd hmem hnot
  | none =>
    by_cases hz : st.version = 0
    · simp only [openAttempt, if_pos hz, Except.ok.injEq] at h
      subst h
      simp [hz]
    · simp only [openAttempt, if_neg hz, Except.ok.injEq] at h
      subst h
      exact absurd hmem hnot

/-- C2: the store connector's open procedure retries without an explicit
version on a version-too-low or blocked signal; when an open succeeds but
the required partition is missing it reopens the closed connection at
`max(currentVersion, dbVersion) + 1`; the whole procedure spends at most
`MAX_DB_MIGRATION_ATTEMPTS = 3` attempts and exhausting the budget is the
provisioning failure; consequently a successful open always ends with the
required partition present at the connection's version, never decreases
the version, and strictly increases it whenever the partition was missing
at the start. -/
theorem defaultOpenDatabase_retries_provisions_and_migrates :
    (∀ (st : IdbState) (v : Nat) (s : String) (sched : List Bool) (n : Nat),
      v < st.version →
      openDatabaseLoop st (some v) s sched (n + 1) =
        openDatabaseLoop st none s sched.tail n) ∧
    (∀ (st : IdbState) (v : Nat) (s : String) (sched : List Bool) (n : Nat),
      st.version < v → sched.headD false = true →
      openDatabaseLoop st (some v) s sched (n + 1) =
        openDatabaseLoop st none s sched.tail n) ∧
    (∀ (st st₁ : IdbState) (v : Nat) (s : String) (sched : List Bool) (n : Nat),
      openAttempt st (some v) s (sched.headD false) = .ok st₁ →
      s ≠ "" → s ∉ st₁.stores →
      openDatabaseLoop st (some v) s sched (n + 1) =
        openDatabaseLoop st₁ (some (max v st₁.version + 1)) s sched.tail n) ∧
    (∀ (st : IdbState) (cur : Option Nat) (s : String) (sched : List Bool),
      openDatabaseLoop st cur s sched 0 = .error .provisioningFailure) ∧
    (∀ (st : IdbState) (v : Option Nat) (s : String) (sched : List Bool),
      defaultOpenDatabase st v s sched =
        openDatabaseLoop st v s sched MAX_DB_MIGRATION_ATTEMPTS ∧
      MAX_DB_MIGRATION_ATTEMPTS = 3) ∧
    (∀ (st : IdbState) (cur : Option Nat) (s : String) (sched : List Bool)
        (n : Nat) (stF : IdbState) (ver : Nat),
      openDatabaseLoop st cur s sched n = .ok (stF, ver) → s ≠ "" →
      s ∈ stF.stores ∧ ver = stF.version ∧ st.version ≤ stF.version ∧
        (s ∉ st.stores → st.version < stF.version)) := by
  refine ⟨?_, ?_, ?_, ?_, fun st v s sched => ⟨rfl, rfl⟩, ?_⟩
  · intro st v s sched n hlow
    have hatt : openAttempt st (some v) s (sched.headD false) =
        .error .versionErr := by
      simp [openAttempt, hlow]
    rw [openDatabaseLoop, hatt]
  · intro st v s sched n hhigh hblocked
    have hatt : openAttempt st (some v) s (sched.headD false) =
        .error .blockedErr := by
      rw [hblocked]
      simp [openAttempt, lt_asymm hhigh, hhigh]
    rw [openDatabaseLoop, hatt]
  · intro st st₁ v s sched n hatt hs hmem
    have hcond : ¬(s = "" ∨ s ∈ st₁.stores) := by
      rintro (h | h)
      · exact hs h
      · exact hmem h
    have hmax : (if st₁.version ≤ v then v + 1 else st₁.version + 1) =
        max v st₁.version + 1 := by
      rcases le_or_lt st₁.version v with hle | hlt
      · rw [if_pos hle, Nat.max_eq_left hle]
      · rw [if_neg (Nat.not_le_of_lt hlt), Nat.max_eq_right (le_of_lt hlt)]
    rw [openDatabaseLoop, hatt]
    show (if s = "" ∨ s ∈ st₁.stores then Except.ok (st₁, st₁.version)
        else openDatabaseLoop st₁
          (some (if st₁.version ≤ v then v + 1 else st₁.version + 1)) s
          sched.tail n) =
      openDatabaseLoop st₁ (some (max v st₁.version + 1)) s sched.tail n
    rw [if_neg hcond, hmax]
  · intro st cur s sched
    rfl
  · intro st cur s sched n
    induction n generalizing st cur sched with
    | zero =>
      intro stF ver hout hs
      cases hout
    | succ n ih =>
      intro stF ver hout hs
      rw [openDatabaseLoop] at hout
      split at hout
      · exact ih st none sched.tail stF ver hout hs
      · exact ih st none sched.tail stF ver hout hs
      · cases hout
      · rename_i st₁ hatt
        split at hout
        · rename_i hcond
          rcases hcond with hc | hc
          · exact absurd hc hs
          · cases hout
            refine ⟨hc, rfl, openAttempt_version_mono st cur s _ _ hatt, ?_⟩
            intro hnot
            exact openAttempt_store_gain st cur s _ _ hatt hnot hc
        · rename_i hcond
          push_neg at hcond
          have h := ih st₁ _ sched.tail stF ver hout hs
          have hmono := openAttempt_version_mono st cur s _ st₁ hatt
          have hstrict := h.2.2.2 hcond.2
          exact ⟨h.1, h.2.1, le_trans hmono (le_of_lt hstrict),
            fun _ => lt_of_le_of_lt hmono hstrict⟩

/-- Witness for C2: a database at version 3 holding only the registry
partition, opened with requested version 1 and no blocking — the
version-too-low retry reopens without a version, finds the partition
missing, and migrates to version 4 where the partition exists. -/
theorem defaultOpenDatabase_retries_provisions_and_migrates_witness :
    "nativeHandles" ∈
      ({ version := 4, stores := ["registry", "nativeHandles"] } : IdbState).stores ∧
    (4 : Nat) =
      ({ version := 4, stores := ["registry", "nativeHandles"] } : IdbState).version ∧
    ({ version := 3, stores := ["registry"] } : IdbState).version ≤
      ({ version := 4, stores := ["registry", "nativeHandles"] } : IdbState).version ∧
    ("nativeHandles" ∉ ({ version := 3, stores := ["registry"] } : IdbState).stores →
      ({ version := 3, stores := ["registry"] } : IdbState).version <
      ({ version := 4, stores := ["registry", "nativeHandles"] } : IdbState).version) :=
  defaultOpenDatabase_retries_provisions_and_migrates.2.2.2.2.2
    { version := 3, stores := ["registry"] } (some 1) "nativeHandles" [] 3
    { version := 4, stores := ["registry", "nativeHandles"] } 4
    (by decide) (by decide)

end FileFerry
